import Mathlib

/-!
Verification of the SmartHome3 gateway communication layer and its
supporting services.

The power-bus protocol engine (the PowerCommunicator class, the power_api
frame builders and the serial helpers) is not present under src; only its
test suite is.  Those parts are modelled from the specification: the frame
grammar follows spec sections 3 and 9 (start marker, two-byte bus address,
sequence byte, direction byte, three-byte command identifier, length byte,
variable payload, checksum byte and two-byte terminator), chosen so that
the asserted byte counts are reproduced (a 14-byte request and an 18-byte
response for the get-voltage pair).  The vpn service and the input-status
tracker are translated directly from src/vpn_service.py and
src/master/inputs.py.
-/

namespace Gateway

/-- Modelled from the spec: the frame start marker (power_api is missing
from the sources; spec section 3 prescribes a start marker). -/
def START : List Nat := [83, 84, 82]

/-- Modelled from the spec: the two-byte frame terminator. -/
def TERM : List Nat := [13, 10]

/-- Modelled from the spec: direction byte marking a request frame. -/
def INPUT_DIR : Nat := 71

/-- Modelled from the spec: direction byte marking a response frame. -/
def OUTPUT_DIR : Nat := 82

/-- Modelled from the spec: the checksum byte computed over a frame body. -/
def crc8 (l : List Nat) : Nat := l.sum % 256

/-- Modelled from the spec: serialize a frame from a two-byte address, a
sequence byte, a direction byte, a three-byte command identifier and a
payload (spec section 3; the concrete grammar is fixed per spec section 9
so that a payload of n bytes yields a frame of 14 + n bytes). -/
def buildFrame (addr : List Nat) (seq dir : Nat) (cid : List Nat)
    (payload : List Nat) : List Nat :=
  let body := addr ++ [seq, dir] ++ cid ++ [payload.length] ++ payload
  START ++ body ++ [crc8 body] ++ TERM

/-- Modelled from the spec: the Frame Codec's completeness check.  Frames
are self-delimiting: once the 11-byte header is available, the length byte
at offset 10 determines the total frame length 14 + n. -/
def frameComplete (buf : List Nat) : Option Nat :=
  if buf.length < 11 then none
  else if buf.length < 14 + buf.getD 10 0 then none
  else some (14 + buf.getD 10 0)

/-- Modelled from the spec: extract one complete frame from the receive
buffer, leaving any trailing bytes for future calls. -/
def tryExtract (buf : List Nat) : Option (List Nat × List Nat) :=
  match frameComplete buf with
  | some n => some (buf.take n, buf.drop n)
  | none => none

/-- A parsed frame: address, sequence, direction, command id, payload. -/
structure ParsedFrame where
  addr : List Nat
  seq : Nat
  dir : Nat
  cid : List Nat
  payload : List Nat
  deriving DecidableEq

/-- Modelled from the spec: parse a complete frame into its fields,
verifying the start marker, the terminator and the checksum. -/
def parseFrame (f : List Nat) : Option ParsedFrame :=
  match f with
  | s1 :: s2 :: s3 :: a1 :: a2 :: sq :: dr :: c1 :: c2 :: c3 :: len :: rest =>
    match rest.drop len with
    | [ck, t1, t2] =>
      if [s1, s2, s3] = START ∧ [t1, t2] = TERM
          ∧ ck = crc8 ([a1, a2] ++ [sq, dr] ++ [c1, c2, c3] ++ [len] ++ rest.take len) then
        some ⟨[a1, a2], sq, dr, [c1, c2, c3], rest.take len⟩
      else none
    | _ => none
  | _ => none

/-- Modelled from the spec: a 32-bit payload word, little endian (floating
values are modelled by their 32-bit payload word). -/
def encodeWord (v : Nat) : List Nat :=
  [v % 256, v / 256 % 256, v / 65536 % 256, v / 16777216 % 256]

/-- Modelled from the spec: the payload carrying a tuple of 32-bit values. -/
def encodeWords : List Nat → List Nat
  | [] => []
  | v :: r => encodeWord v ++ encodeWords r

/-- Modelled from the spec: a Command Descriptor's decode function, turning
a response payload back into the tuple of carried values. -/
def decodeWords : List Nat → List Nat
  | b0 :: b1 :: b2 :: b3 :: r => (b0 + 256 * b1 + 65536 * b2 + 16777216 * b3) :: decodeWords r
  | _ => []

/-- Modelled from the spec: a Command Descriptor is identified by its
three-byte command identifier; encoding and decoding go through the shared
frame grammar. -/
structure PowerCommand where
  cid : List Nat
  deriving DecidableEq

/-- Modelled from the spec: power_api.get_voltage. -/
def get_voltage : PowerCommand := ⟨[86, 79, 76]⟩

/-- Modelled from the spec: power_api.get_frequency. -/
def get_frequency : PowerCommand := ⟨[70, 82, 69]⟩

/-- Modelled from the spec: power_api.set_addressmode. -/
def set_addressmode : PowerCommand := ⟨[65, 71, 84]⟩

/-- Modelled from the spec: a descriptor's request-frame builder
(power_api action.create_input). -/
def create_input (c : PowerCommand) (addr : List Nat) (seq : Nat)
    (payload : List Nat) : List Nat :=
  buildFrame addr seq INPUT_DIR c.cid payload

/-- Modelled from the spec: a descriptor's response-frame builder
(power_api action.create_output), carrying a tuple of values. -/
def create_output (c : PowerCommand) (addr : List Nat) (seq : Nat)
    (vals : List Nat) : List Nat :=
  buildFrame addr seq OUTPUT_DIR c.cid (encodeWords vals)

/-- Modelled from the spec: payload value enabling address mode. -/
def ADDRESS_MODE : Nat := 1

/-- Modelled from the spec: payload value restoring normal mode. -/
def NORMAL_MODE : Nat := 0

/-- Modelled from the spec: the reserved broadcast address slot. -/
def BROADCAST_ADDRESS : List Nat := [69, 255]

/-- Modelled from the spec: Bus Mode (spec section 3). -/
inductive BusMode
  | normal
  | addressAssignment
  deriving DecidableEq

/-- Modelled from the spec: the error kinds of spec section 7. -/
inductive CommError
  | addressModeActive
  | timeout
  | wrongResponse
  | malformed
  deriving DecidableEq

/-- Modelled from the spec: the Communicator's state — sequence counter,
Bus Mode and the two diagnostic byte counters. -/
structure CommState where
  seqC : Nat
  mode : BusMode
  bytesWritten : Nat
  bytesRead : Nat
  deriving DecidableEq

/-- Modelled from the spec: allocate the next sequence number,
increment-and-wrap within 1..255 (0 is reserved for unset/broadcast). -/
def nextSeq (s : Nat) : Nat := s % 255 + 1

/-- Modelled from the spec: the read loop of spec section 4.1 step 4 —
append each non-empty chunk to the receive buffer until the Frame Codec
recognizes one complete frame or a read returns nothing (timeout).  The
transport is modelled by the list of chunks its successive reads deliver;
the result is the recognized frame (if any) and the number of bytes read. -/
def recvFrame : List (List Nat) → List Nat → Option (List Nat) × Nat
  | [], _ => (none, 0)
  | chunk :: rest, buf =>
    if chunk.isEmpty then (none, 0)
    else
      match tryExtract (buf ++ chunk) with
      | some (f, _) => (some f, chunk.length)
      | none =>
        let r := recvFrame rest (buf ++ chunk)
        (r.1, chunk.length + r.2)

/-- Modelled from the spec: PowerCommunicator.do_command (spec section
4.1).  While Bus Mode is AddressAssignment the call is rejected without
any I/O; otherwise the next sequence number is allocated, the encoded
request is written (its length added to the written counter), reads are
accumulated until a complete frame or a timeout (each chunk added to the
read counter), the frame's address and sequence are verified against the
pending exchange, and the payload is decoded. -/
def do_command (st : CommState) (addr : List Nat) (action : PowerCommand)
    (input : List Nat) (reads : List (List Nat)) :
    Except CommError (List Nat) × CommState :=
  match st.mode with
  | BusMode.addressAssignment => (Except.error CommError.addressModeActive, st)
  | BusMode.normal =>
    let seq := nextSeq st.seqC
    let req := create_input action addr seq input
    let st1 := { st with seqC := seq, bytesWritten := st.bytesWritten + req.length }
    let rd := recvFrame reads []
    let st2 := { st1 with bytesRead := st1.bytesRead + rd.2 }
    let res : Except CommError (List Nat) :=
      match rd.1 with
      | none => Except.error CommError.timeout
      | some f =>
        match parseFrame f with
        | none => Except.error CommError.malformed
        | some pf =>
          if pf.addr = addr ∧ pf.seq = seq then Except.ok (decodeWords pf.payload)
          else Except.error CommError.wrongResponse
    (res, st2)

/-- Modelled from the spec: start address mode (spec section 4.2) — send
the enable directive with a freshly allocated sequence number and move Bus
Mode to AddressAssignment.  The concurrent discovery loop itself is outside
the scope of the claims. -/
def start_address_mode (st : CommState) : CommState :=
  let seq := nextSeq st.seqC
  let req := create_input set_addressmode BROADCAST_ADDRESS seq [ADDRESS_MODE]
  { st with seqC := seq, mode := BusMode.addressAssignment,
            bytesWritten := st.bytesWritten + req.length }

/-- Modelled from the spec: stop address mode (spec section 4.2) — send the
disable directive with a freshly allocated sequence number and move Bus
Mode back to Normal, the bus being idle when the call returns. -/
def stop_address_mode (st : CommState) : CommState :=
  let seq := nextSeq st.seqC
  let req := create_input set_addressmode BROADCAST_ADDRESS seq [NORMAL_MODE]
  { st with seqC := seq, mode := BusMode.normal,
            bytesWritten := st.bytesWritten + req.length }

/-- Modelled from the spec: pure observer of Bus Mode. -/
def in_address_mode (st : CommState) : Bool :=
  match st.mode with
  | BusMode.addressAssignment => true
  | BusMode.normal => false

/-- The JSON keys consulted by Cloud.should_open_vpn in
src/vpn_service.py, as an enumeration so that objects are association
lists over these keys. -/
inductive JKey
  | sleep_time
  | actions
  | modes
  | open_vpn
  deriving DecidableEq

/-- A JSON value, as far as the vpn service inspects one. -/
inductive JVal
  | null
  | bool (b : Bool)
  | num (n : Int)
  deriving DecidableEq

/-- A JSON object: an association list from keys to values. -/
abbrev JObj := List (JKey × JVal)

/-- Dictionary lookup on a JSON object. -/
def jlookup (o : JObj) (k : JKey) : Option JVal :=
  match o with
  | [] => none
  | p :: r => if p.1 = k then some p.2 else jlookup r k

/-- The mutable fields of vpn_service.Cloud, together with the led states
it drives and the record of action batches handed to the executor. -/
structure CloudState where
  sleep_time : JVal
  modes : Option JVal
  last_connect : Int
  led_cloud : Bool
  led_alive : Bool
  actions_run : List JVal
  deriving DecidableEq

/-- Cloud.DEFAULT_SLEEP_TIME = 30 from src/vpn_service.py. -/
def DEFAULT_SLEEP_TIME : JVal := JVal.num 30

/-- Cloud.should_open_vpn from src/vpn_service.py.  The outcome of the
https post and JSON parse is an explicit argument: `none` models any
exception raised while posting or parsing (network failure, bad JSON).  A
missing open_vpn key raises only after the state updates, exactly as in
the source, and is caught by the same handler.  Returns the
(success, open_vpn) pair and the new state. -/
def should_open_vpn (st : CloudState) (now : Int) (response : Option JObj) :
    (Bool × JVal) × CloudState :=
  match response with
  | none =>
    ((false, JVal.bool true), { st with led_cloud := false, led_alive := false })
  | some data =>
    let st1 := { st with sleep_time := (jlookup data JKey.sleep_time).getD DEFAULT_SLEEP_TIME }
    let st2 :=
      match jlookup data JKey.actions with
      | some a => { st1 with actions_run := st1.actions_run ++ [a] }
      | none => st1
    let st3 := { st2 with modes := jlookup data JKey.modes }
    let st4 := { st3 with led_cloud := true, led_alive := !st3.led_alive, last_connect := now }
    match jlookup data JKey.open_vpn with
    | some v => ((true, v), st4)
    | none => ((false, JVal.bool true), { st4 with led_cloud := false, led_alive := false })

/-- BufferingDataCollector.BUFFER_SIZE from src/vpn_service.py. -/
def BUFFER_SIZE : Nat := 2500

/-- BufferingDataCollector.__append_to_buffer from src/vpn_service.py:
append the element, then, when the buffer exceeds BUFFER_SIZE elements,
keep only the trailing BUFFER_SIZE elements (the python slice
buffer[len(buffer) - BUFFER_SIZE:]). -/
def append_to_buffer {α : Type} (buf : List α) (e : α) : List α :=
  let b := buf ++ [e]
  if BUFFER_SIZE < b.length then b.drop (b.length - BUFFER_SIZE) else b

/-- InputStatus from src/master/inputs.py: the last num_inputs inputs
pressed within the last `seconds` seconds; entries pair the press
timestamp with the input data. -/
structure InputState where
  num_inputs : Nat
  seconds : Int
  inputs : List (Int × Nat)
  deriving DecidableEq

/-- The InputStatus constructor: an empty history. -/
def InputState.new (n : Nat) (secs : Int) : InputState := ⟨n, secs, []⟩

/-- InputStatus.__clean: keep only the entries strictly newer than
now - seconds. -/
def InputState.clean (s : InputState) (now : Int) : InputState :=
  { s with inputs := s.inputs.filter fun i => now - s.seconds < i.1 }

/-- InputStatus.add_data: clean, pop entries from the front while the list
is at capacity (for num_inputs ≥ 1 the pop-front loop removes exactly
length + 1 - num_inputs leading entries), then append the new entry. -/
def InputState.add_data (s : InputState) (now : Int) (d : Nat) : InputState :=
  let c := s.clean now
  { c with inputs := c.inputs.drop (c.inputs.length + 1 - c.num_inputs) ++ [(now, d)] }

/-- InputStatus.get_status: clean, then return the data of the remaining
entries; the cleaned state persists. -/
def InputState.get_status (s : InputState) (now : Int) : List Nat × InputState :=
  let c := s.clean now
  (c.inputs.map Prod.snd, c)

/-- One call in a history of InputStatus operations, tagged with the
current clock value at the call. -/
inductive InputEv
  | add (t : Int) (d : Nat)
  | get (t : Int)
  deriving DecidableEq

/-- The clock value at which an event happens. -/
def InputEv.time : InputEv → Int
  | InputEv.add t _ => t
  | InputEv.get t => t

/-- Replay a history of calls against an InputStatus. -/
def InputState.run (s : InputState) : List InputEv → InputState
  | [] => s
  | InputEv.add t d :: r => InputState.run (s.add_data t d) r
  | InputEv.get t :: r => InputState.run (s.get_status t).2 r

/-- The timestamped entries appended by the add events of a history, in
order. -/
def addsOf : List InputEv → List (Int × Nat)
  | [] => []
  | InputEv.add t d :: r => (t, d) :: addsOf r
  | InputEv.get _ :: r => addsOf r

/-- The frame body spelled out as an explicit byte list. -/
lemma buildFrame_cons (a1 a2 sq dr c1 c2 c3 : Nat) (payload : List Nat) :
    buildFrame [a1, a2] sq dr [c1, c2, c3] payload
      = 83 :: 84 :: 82 :: a1 :: a2 :: sq :: dr :: c1 :: c2 :: c3 :: payload.length ::
        (payload ++ [crc8 ([a1, a2] ++ [sq, dr] ++ [c1, c2, c3]
          ++ [payload.length] ++ payload), 13, 10]) := by
  simp [buildFrame, START, TERM]

/-- A well-formed frame with an n-byte payload is 14 + n bytes long. -/
lemma length_buildFrame (a1 a2 sq dr c1 c2 c3 : Nat) (payload : List Nat) :
    (buildFrame [a1, a2] sq dr [c1, c2, c3] payload).length = 14 + payload.length := by
  simp [buildFrame_cons]
  omega

/-- The length byte of a well-formed frame is the payload length. -/
lemma getElem10_buildFrame (a1 a2 sq dr c1 c2 c3 : Nat) (payload : List Nat) :
    (buildFrame [a1, a2] sq dr [c1, c2, c3] payload)[10]? = some payload.length := by
  simp [buildFrame_cons]

/-- The codec recognizes a complete well-formed frame. -/
lemma frameComplete_buildFrame (a1 a2 sq dr c1 c2 c3 : Nat) (payload : List Nat) :
    frameComplete (buildFrame [a1, a2] sq dr [c1, c2, c3] payload)
      = some (14 + payload.length) := by
  simp [frameComplete, length_buildFrame, getElem10_buildFrame]
  omega

/-- The codec never recognizes a strict prefix of a well-formed frame. -/
lemma frameComplete_take_eq_none (a1 a2 sq dr c1 c2 c3 : Nat) (payload : List Nat)
    (k : Nat) (hk : k < 14 + payload.length) :
    frameComplete ((buildFrame [a1, a2] sq dr [c1, c2, c3] payload).take k) = none := by
  have hlen : (buildFrame [a1, a2] sq dr [c1, c2, c3] payload).length
      = 14 + payload.length := length_buildFrame ..
  by_cases h11 : k < 11
  · simp [frameComplete, List.length_take, hlen]
    omega
  · have h10 : (10 : Nat) < k := by omega
    simp [frameComplete, List.length_take, hlen,
      List.getElem?_take_of_lt h10, getElem10_buildFrame]
    omega

/-- Parsing inverts building, for frames of the canonical shape. -/
lemma parseFrame_buildFrame (a1 a2 sq dr c1 c2 c3 : Nat) (payload : List Nat) :
    parseFrame (buildFrame [a1, a2] sq dr [c1, c2, c3] payload)
      = some ⟨[a1, a2], sq, dr, [c1, c2, c3], payload⟩ := by
  rw [buildFrame_cons]
  simp [parseFrame, START, TERM,
    List.drop_left' (by simp : payload.length = payload.length),
    List.take_left' (rfl : payload.length = payload.length)]

/-- A transport that delivers the whole frame in one read yields that
frame, all of its bytes counted. -/
lemma recvFrame_single (a1 a2 sq dr c1 c2 c3 : Nat) (payload : List Nat) :
    recvFrame [buildFrame [a1, a2] sq dr [c1, c2, c3] payload] []
      = (some (buildFrame [a1, a2] sq dr [c1, c2, c3] payload), 14 + payload.length) := by
  have hlen := length_buildFrame a1 a2 sq dr c1 c2 c3 payload
  have hne : (buildFrame [a1, a2] sq dr [c1, c2, c3] payload).isEmpty = false := by
    rw [buildFrame_cons]; rfl
  have htake : (buildFrame [a1, a2] sq dr [c1, c2, c3] payload).take (14 + payload.length)
      = buildFrame [a1, a2] sq dr [c1, c2, c3] payload :=
    List.take_of_length_le (le_of_eq hlen)
  simp [recvFrame, hne, tryExtract, frameComplete_buildFrame, htake, hlen]

/-- A frame delivered as two non-empty chunks is reassembled into the same
frame, with the same total number of bytes counted. -/
lemma recvFrame_split (a1 a2 sq dr c1 c2 c3 : Nat) (payload : List Nat) (k : Nat)
    (hk0 : 0 < k) (hk : k < 14 + payload.length) :
    recvFrame [(buildFrame [a1, a2] sq dr [c1, c2, c3] payload).take k,
               (buildFrame [a1, a2] sq dr [c1, c2, c3] payload).drop k] []
      = (some (buildFrame [a1, a2] sq dr [c1, c2, c3] payload), 14 + payload.length) := by
  have hlen := length_buildFrame a1 a2 sq dr c1 c2 c3 payload
  have hne1 : ((buildFrame [a1, a2] sq dr [c1, c2, c3] payload).take k).isEmpty = false := by
    rw [List.isEmpty_eq_false, ← List.length_pos, List.length_take, hlen]
    omega
  have hne2 : ((buildFrame [a1, a2] sq dr [c1, c2, c3] payload).drop k).isEmpty = false := by
    rw [List.isEmpty_eq_false, ← List.length_pos, List.length_drop, hlen]
    omega
  have htake : (buildFrame [a1, a2] sq dr [c1, c2, c3] payload).take (14 + payload.length)
      = buildFrame [a1, a2] sq dr [c1, c2, c3] payload :=
    List.take_of_length_le (le_of_eq hlen)
  simp [recvFrame, hne1, hne2, tryExtract, frameComplete_take_eq_none a1 a2 sq dr c1 c2 c3 payload k hk,
    frameComplete_buildFrame, htake, List.length_take, List.length_drop, hlen]
  omega

/-- Little-endian 32-bit word round trip, one word at the head. -/
lemma decode_encode_word (v : Nat) (hv : v < 4294967296) (r : List Nat) :
    decodeWords (encodeWord v ++ r) = v :: decodeWords r := by
  simp [encodeWord, decodeWords]
  omega

/-- Decoding a payload of encoded 32-bit values recovers the values. -/
lemma decode_encode_words (vals : List Nat) (hv : ∀ v ∈ vals, v < 4294967296) :
    decodeWords (encodeWords vals) = vals := by
  induction vals with
  | nil => rfl
  | cons v r ih =>
    rw [encodeWords, decode_encode_word v (hv v (by simp)) (encodeWords r),
      ih fun x hx => hv x (by simp [hx])]

/-- Each encoded value contributes four payload bytes. -/
lemma length_encodeWords (vals : List Nat) : (encodeWords vals).length = 4 * vals.length := by
  induction vals with
  | nil => rfl
  | cons v r ih =>
    simp [encodeWords, encodeWord, ih]
    omega

/-- A command call against a transport that answers with the matching
response frame succeeds with the carried values; the counters grow by the
request and response frame lengths. -/
lemma do_command_ok (st : CommState) (hmode : st.mode = BusMode.normal)
    (a1 a2 : Nat) (action : PowerCommand) (c1 c2 c3 : Nat) (hc : action.cid = [c1, c2, c3])
    (input : List Nat) (vals : List Nat) (hv : ∀ v ∈ vals, v < 4294967296) :
    do_command st [a1, a2] action input
        [create_output action [a1, a2] (nextSeq st.seqC) vals]
      = (Except.ok vals,
         { st with seqC := nextSeq st.seqC,
                   bytesWritten := st.bytesWritten + (14 + input.length),
                   bytesRead := st.bytesRead + (14 + 4 * vals.length) }) := by
  obtain ⟨s, m, w, r⟩ := st
  obtain ⟨cid⟩ := action
  simp only [CommState.mode] at hmode
  simp only [PowerCommand.cid] at hc
  subst hmode
  subst hc
  have hrecv := recvFrame_single a1 a2 (nextSeq s) OUTPUT_DIR c1 c2 c3 (encodeWords vals)
  have hparse := parseFrame_buildFrame a1 a2 (nextSeq s) OUTPUT_DIR c1 c2 c3 (encodeWords vals)
  simp [do_command, create_output, create_input, hrecv, hparse,
    decode_encode_words vals hv, length_encodeWords, length_buildFrame]

/-- A command call whose first read returns nothing fails with Timeout:
the request is written, no bytes are read, and the sequence counter has
moved to the freshly allocated number. -/
lemma do_command_timeout (st : CommState) (hmode : st.mode = BusMode.normal)
    (a1 a2 : Nat) (action : PowerCommand) (c1 c2 c3 : Nat) (hc : action.cid = [c1, c2, c3])
    (input : List Nat) :
    do_command st [a1, a2] action input [[]]
      = (Except.error CommError.timeout,
         { st with seqC := nextSeq st.seqC,
                   bytesWritten := st.bytesWritten + (14 + input.length) }) := by
  obtain ⟨s, m, w, r⟩ := st
  obtain ⟨cid⟩ := action
  simp only [CommState.mode] at hmode
  simp only [PowerCommand.cid] at hc
  subst hmode
  subst hc
  simp [do_command, create_input, recvFrame, length_buildFrame]

/-- A command call answered by a complete frame whose address or sequence
does not match the pending exchange fails with the wrong-response error;
the sequence counter holds the freshly allocated number and is not moved
further. -/
lemma do_command_wrong (st : CommState) (hmode : st.mode = BusMode.normal)
    (a1 a2 : Nat) (action : PowerCommand) (c1 c2 c3 : Nat) (hc : action.cid = [c1, c2, c3])
    (input : List Nat) (r1 r2 rsq rdr rc1 rc2 rc3 : Nat) (rpl : List Nat)
    (hmis : ¬([r1, r2] = [a1, a2] ∧ rsq = nextSeq st.seqC)) :
    do_command st [a1, a2] action input [buildFrame [r1, r2] rsq rdr [rc1, rc2, rc3] rpl]
      = (Except.error CommError.wrongResponse,
         { st with seqC := nextSeq st.seqC,
                   bytesWritten := st.bytesWritten + (14 + input.length),
                   bytesRead := st.bytesRead + (14 + rpl.length) }) := by
  obtain ⟨s, m, w, r⟩ := st
  obtain ⟨cid⟩ := action
  simp only [CommState.mode] at hmode
  simp only [PowerCommand.cid] at hc
  simp only [CommState.seqC] at hmis
  subst hmode
  subst hc
  have hrecv := recvFrame_single r1 r2 rsq rdr rc1 rc2 rc3 rpl
  have hparse := parseFrame_buildFrame r1 r2 rsq rdr rc1 rc2 rc3 rpl
  simp [do_command, create_input, hrecv, hparse, length_buildFrame, hmis]
  intro h1 h2 h3
  exact hmis ⟨by rw [h1, h2], h3⟩

/-- Two transports whose read loops produce the same outcome make a
command call behave identically. -/
lemma do_command_congr (st : CommState) (addr : List Nat) (action : PowerCommand)
    (input : List Nat) (reads1 reads2 : List (List Nat))
    (h : recvFrame reads1 [] = recvFrame reads2 []) :
    do_command st addr action input reads1 = do_command st addr action input reads2 := by
  unfold do_command
  rw [h]

/-- A command call in Normal mode always moves the sequence counter to the
freshly allocated number and leaves the bus in Normal mode, whatever the
transport delivers. -/
lemma do_command_state (st : CommState) (addr : List Nat) (action : PowerCommand)
    (input : List Nat) (reads : List (List Nat)) (hmode : st.mode = BusMode.normal) :
    (do_command st addr action input reads).2.seqC = nextSeq st.seqC
    ∧ (do_command st addr action input reads).2.mode = BusMode.normal := by
  obtain ⟨s, m, w, r⟩ := st
  simp only [CommState.mode] at hmode
  subst hmode
  exact ⟨rfl, rfl⟩

/-- C1: while Bus Mode is AddressAssignment, every command call fails
immediately with the AddressModeActive error and performs no transport
I/O — the state, both byte counters included, is returned unchanged. -/
theorem claim1_address_mode_rejects (st : CommState) (addr : List Nat)
    (action : PowerCommand) (input : List Nat) (reads : List (List Nat))
    (h : st.mode = BusMode.addressAssignment) :
    do_command st addr action input reads
      = (Except.error CommError.addressModeActive, st) := by
  obtain ⟨s, m, w, r⟩ := st
  simp only [CommState.mode] at h
  subst h
  rfl

/-- Witness for C1 at a concrete state in address mode. -/
theorem claim1_witness :
    (⟨7, BusMode.addressAssignment, 3, 4⟩ : CommState).mode = BusMode.addressAssignment
    ∧ do_command ⟨7, BusMode.addressAssignment, 3, 4⟩ [69, 1] get_voltage [] []
      = (Except.error CommError.addressModeActive, ⟨7, BusMode.addressAssignment, 3, 4⟩) :=
  ⟨rfl, claim1_address_mode_rejects ⟨7, BusMode.addressAssignment, 3, 4⟩ [69, 1]
    get_voltage [] [] rfl⟩

/-- C2: a successful get-voltage exchange returns exactly the carried value
as a one-element tuple; the written counter grows by the 14-byte request
and the read counter by the 18-byte response. -/
theorem claim2_value_and_counters (st : CommState) (a1 a2 v : Nat)
    (hmode : st.mode = BusMode.normal) (hv : v < 4294967296) :
    do_command st [a1, a2] get_voltage []
        [create_output get_voltage [a1, a2] (nextSeq st.seqC) [v]]
      = (Except.ok [v],
         { st with seqC := nextSeq st.seqC,
                   bytesWritten := st.bytesWritten + 14,
                   bytesRead := st.bytesRead + 18 }) := by
  have hv' : ∀ x ∈ [v], x < 4294967296 := by
    intro x hx
    rw [List.mem_singleton] at hx
    exact hx ▸ hv
  simpa using do_command_ok st hmode a1 a2 get_voltage 86 79 76 rfl [] [v] hv'

/-- Witness for C2: the test vector of test_do_command, value 49.5
modelled as the payload word 495. -/
theorem claim2_witness :
    (⟨0, BusMode.normal, 0, 0⟩ : CommState).mode = BusMode.normal
    ∧ (495 : Nat) < 4294967296
    ∧ do_command ⟨0, BusMode.normal, 0, 0⟩ [69, 1] get_voltage []
        [create_output get_voltage [69, 1] (nextSeq 0) [495]]
      = (Except.ok [495], ⟨1, BusMode.normal, 14, 18⟩) :=
  ⟨rfl, by decide,
    claim2_value_and_counters ⟨0, BusMode.normal, 0, 0⟩ 69 1 495 rfl (by decide)⟩

/-- C3: a command call whose read window delivers no bytes fails with the
communication-timed-out error; the pending exchange is discarded (only the
sequence counter and the written counter moved), and a subsequent call with
the same parameters succeeds normally under a fresh sequence number. -/
theorem claim3_timeout_then_recovery (st : CommState) (a1 a2 v : Nat)
    (hmode : st.mode = BusMode.normal) (hv : v < 4294967296) :
    (do_command st [a1, a2] get_voltage [] [[]]).1 = Except.error CommError.timeout
    ∧ (do_command st [a1, a2] get_voltage [] [[]]).2
        = { st with seqC := nextSeq st.seqC, bytesWritten := st.bytesWritten + 14 }
    ∧ nextSeq (nextSeq st.seqC) ≠ nextSeq st.seqC
    ∧ (do_command (do_command st [a1, a2] get_voltage [] [[]]).2 [a1, a2] get_voltage []
        [create_output get_voltage [a1, a2]
          (nextSeq (do_command st [a1, a2] get_voltage [] [[]]).2.seqC) [v]]).1
      = Except.ok [v] := by
  have hv' : ∀ x ∈ [v], x < 4294967296 := by
    intro x hx
    rw [List.mem_singleton] at hx
    exact hx ▸ hv
  have ht : do_command st [a1, a2] get_voltage [] [[]]
      = (Except.error CommError.timeout,
         { st with seqC := nextSeq st.seqC, bytesWritten := st.bytesWritten + 14 }) := by
    simpa using do_command_timeout st hmode a1 a2 get_voltage 86 79 76 rfl []
  refine ⟨by rw [ht], by rw [ht], by unfold nextSeq; omega, ?_⟩
  have hm2 := (do_command_state st [a1, a2] get_voltage [] [[]] hmode).2
  rw [do_command_ok _ hm2 a1 a2 get_voltage 86 79 76 rfl [] [v] hv']

/-- Witness for C3 at the test vector of test_do_command_timeout_test_ongoing. -/
theorem claim3_witness :
    (⟨0, BusMode.normal, 0, 0⟩ : CommState).mode = BusMode.normal
    ∧ (495 : Nat) < 4294967296
    ∧ (do_command ⟨0, BusMode.normal, 0, 0⟩ [69, 1] get_voltage [] [[]]).1
        = Except.error CommError.timeout
    ∧ (do_command ⟨0, BusMode.normal, 0, 0⟩ [69, 1] get_voltage [] [[]]).2
        = ⟨1, BusMode.normal, 14, 0⟩
    ∧ nextSeq (nextSeq 0) ≠ nextSeq 0
    ∧ (do_command (do_command ⟨0, BusMode.normal, 0, 0⟩ [69, 1] get_voltage [] [[]]).2
        [69, 1] get_voltage []
        [create_output get_voltage [69, 1]
          (nextSeq (do_command ⟨0, BusMode.normal, 0, 0⟩ [69, 1]
            get_voltage [] [[]]).2.seqC) [495]]).1
      = Except.ok [495] := by
  have h := claim3_timeout_then_recovery ⟨0, BusMode.normal, 0, 0⟩ 69 1 495 rfl (by decide)
  exact ⟨rfl, by decide, h.1, h.2.1, h.2.2.1, h.2.2.2⟩

/-- C4: a response frame delivered as two non-empty chunks produces exactly
the same command-call outcome (value tuple, error and counters) as the same
frame delivered in a single read. -/
theorem claim4_split_transparent (st : CommState) (addr input : List Nat)
    (action : PowerCommand) (a1 a2 sq dr c1 c2 c3 : Nat) (payload : List Nat) (k : Nat)
    (hk0 : 0 < k) (hk : k < 14 + payload.length) :
    do_command st addr action input
        [(buildFrame [a1, a2] sq dr [c1, c2, c3] payload).take k,
         (buildFrame [a1, a2] sq dr [c1, c2, c3] payload).drop k]
      = do_command st addr action input [buildFrame [a1, a2] sq dr [c1, c2, c3] payload] :=
  do_command_congr st addr action input _ _
    (by rw [recvFrame_split a1 a2 sq dr c1 c2 c3 payload k hk0 hk, recvFrame_single])

/-- Witness for C4 at the test vector of test_do_command_split_data: the
18-byte get-voltage response split after five bytes. -/
theorem claim4_witness :
    (0 : Nat) < 5 ∧ (5 : Nat) < 14 + (encodeWords [495]).length
    ∧ do_command ⟨0, BusMode.normal, 0, 0⟩ [69, 1] get_voltage []
        [(buildFrame [69, 1] 1 OUTPUT_DIR [86, 79, 76] (encodeWords [495])).take 5,
         (buildFrame [69, 1] 1 OUTPUT_DIR [86, 79, 76] (encodeWords [495])).drop 5]
      = do_command ⟨0, BusMode.normal, 0, 0⟩ [69, 1] get_voltage []
        [buildFrame [69, 1] 1 OUTPUT_DIR [86, 79, 76] (encodeWords [495])] :=
  ⟨by decide, by decide,
    claim4_split_transparent ⟨0, BusMode.normal, 0, 0⟩ [69, 1] [] get_voltage
      69 1 1 OUTPUT_DIR 86 79 76 (encodeWords [495]) 5 (by decide) (by decide)⟩

/-- C5: a complete frame whose address or sequence does not match the
pending exchange makes the call fail with the wrong-response error — an
error distinct from Timeout — with the sequence counter not moved beyond
the allocation for this call, and a subsequent matching call succeeds. -/
theorem claim5_wrong_response (st : CommState) (a1 a2 : Nat) (action : PowerCommand)
    (c1 c2 c3 : Nat) (hc : action.cid = [c1, c2, c3]) (input : List Nat)
    (r1 r2 rsq rdr rc1 rc2 rc3 : Nat) (rpl : List Nat)
    (hmode : st.mode = BusMode.normal)
    (hmis : [r1, r2] ≠ [a1, a2] ∨ rsq ≠ nextSeq st.seqC) :
    (do_command st [a1, a2] action input
        [buildFrame [r1, r2] rsq rdr [rc1, rc2, rc3] rpl]).1
      = Except.error CommError.wrongResponse
    ∧ (do_command st [a1, a2] action input
        [buildFrame [r1, r2] rsq rdr [rc1, rc2, rc3] rpl]).2.seqC = nextSeq st.seqC
    ∧ CommError.wrongResponse ≠ CommError.timeout
    ∧ ∀ v : Nat, v < 4294967296 →
        (do_command (do_command st [a1, a2] action input
            [buildFrame [r1, r2] rsq rdr [rc1, rc2, rc3] rpl]).2 [a1, a2] action []
          [create_output action [a1, a2]
            (nextSeq (do_command st [a1, a2] action input
              [buildFrame [r1, r2] rsq rdr [rc1, rc2, rc3] rpl]).2.seqC) [v]]).1
        = Except.ok [v] := by
  have hw := do_command_wrong st hmode a1 a2 action c1 c2 c3 hc input
    r1 r2 rsq rdr rc1 rc2 rc3 rpl (by tauto)
  refine ⟨by rw [hw], by rw [hw], by simp, ?_⟩
  intro v hv
  have hv' : ∀ x ∈ [v], x < 4294967296 := by
    intro x hx
    rw [List.mem_singleton] at hx
    exact hx ▸ hv
  have hm2 := (do_command_state st [a1, a2] action input
    [buildFrame [r1, r2] rsq rdr [rc1, rc2, rc3] rpl] hmode).2
  rw [do_command_ok _ hm2 a1 a2 action c1 c2 c3 hc [] [v] hv']

/-- Witness for C5 at the test vector of test_wrong_response: a
get-frequency response for address E3, sequence 2, answering a get-voltage
request to E1 with sequence 1. -/
theorem claim5_witness :
    get_voltage.cid = [86, 79, 76]
    ∧ (⟨0, BusMode.normal, 0, 0⟩ : CommState).mode = BusMode.normal
    ∧ (([69, 3] : List Nat) ≠ [69, 1] ∨ (2 : Nat) ≠ nextSeq 0)
    ∧ (do_command ⟨0, BusMode.normal, 0, 0⟩ [69, 1] get_voltage []
        [buildFrame [69, 3] 2 OUTPUT_DIR [70, 82, 69] (encodeWords [495])]).1
      = Except.error CommError.wrongResponse
    ∧ (do_command ⟨0, BusMode.normal, 0, 0⟩ [69, 1] get_voltage []
        [buildFrame [69, 3] 2 OUTPUT_DIR [70, 82, 69] (encodeWords [495])]).2.seqC = nextSeq 0
    ∧ CommError.wrongResponse ≠ CommError.timeout
    ∧ ∀ v : Nat, v < 4294967296 →
        (do_command (do_command ⟨0, BusMode.normal, 0, 0⟩ [69, 1] get_voltage []
            [buildFrame [69, 3] 2 OUTPUT_DIR [70, 82, 69] (encodeWords [495])]).2
          [69, 1] get_voltage []
          [create_output get_voltage [69, 1]
            (nextSeq (do_command ⟨0, BusMode.normal, 0, 0⟩ [69, 1] get_voltage []
              [buildFrame [69, 3] 2 OUTPUT_DIR [70, 82, 69] (encodeWords [495])]).2.seqC)
            [v]]).1
        = Except.ok [v] := by
  have h := claim5_wrong_response ⟨0, BusMode.normal, 0, 0⟩ 69 1 get_voltage
    86 79 76 rfl [] 69 3 2 OUTPUT_DIR 70 82 69 (encodeWords [495]) rfl
    (by right; decide)
  exact ⟨rfl, rfl, by right; decide, h.1, h.2.1, h.2.2.1, h.2.2.2⟩

/-- C6: after start address mode the observer reports address mode; after
stop address mode it reports normal, and a command call issued immediately
afterwards succeeds normally. -/
theorem claim6_address_mode_cycle (st : CommState) (_hmode : st.mode = BusMode.normal)
    (a1 a2 v : Nat) (hv : v < 4294967296) :
    in_address_mode (start_address_mode st) = true
    ∧ in_address_mode (stop_address_mode (start_address_mode st)) = false
    ∧ (do_command (stop_address_mode (start_address_mode st)) [a1, a2] get_voltage []
        [create_output get_voltage [a1, a2]
          (nextSeq (stop_address_mode (start_address_mode st)).seqC) [v]]).1
      = Except.ok [v] := by
  have hv' : ∀ x ∈ [v], x < 4294967296 := by
    intro x hx
    rw [List.mem_singleton] at hx
    exact hx ▸ hv
  refine ⟨rfl, rfl, ?_⟩
  have hm : (stop_address_mode (start_address_mode st)).mode = BusMode.normal := rfl
  rw [do_command_ok _ hm a1 a2 get_voltage 86 79 76 rfl [] [v] hv']

/-- Witness for C6 following the test_do_command_in_address_mode scenario. -/
theorem claim6_witness :
    (⟨0, BusMode.normal, 0, 0⟩ : CommState).mode = BusMode.normal
    ∧ (495 : Nat) < 4294967296
    ∧ in_address_mode (start_address_mode ⟨0, BusMode.normal, 0, 0⟩) = true
    ∧ in_address_mode (stop_address_mode (start_address_mode ⟨0, BusMode.normal, 0, 0⟩)) = false
    ∧ (do_command (stop_address_mode (start_address_mode ⟨0, BusMode.normal, 0, 0⟩))
        [69, 1] get_voltage []
        [create_output get_voltage [69, 1]
          (nextSeq (stop_address_mode
            (start_address_mode ⟨0, BusMode.normal, 0, 0⟩)).seqC) [495]]).1
      = Except.ok [495] := by
  have h := claim6_address_mode_cycle ⟨0, BusMode.normal, 0, 0⟩ rfl 69 1 495 (by decide)
  exact ⟨rfl, by decide, h.1, h.2.1, h.2.2⟩

/-- C7: the sequence counter is advanced by increment-and-wrap on every
command issued in Normal mode and on each address-mode directive; the
allocated number always differs from the previous counter value, increases
strictly until 255 and then wraps back to 1 (the valid range is 1..255). -/
theorem claim7_sequence_counter (st : CommState) (addr input : List Nat)
    (action : PowerCommand) (reads : List (List Nat))
    (hmode : st.mode = BusMode.normal) :
    (do_command st addr action input reads).2.seqC = nextSeq st.seqC
    ∧ (start_address_mode st).seqC = nextSeq st.seqC
    ∧ (stop_address_mode st).seqC = nextSeq st.seqC
    ∧ nextSeq st.seqC ≠ st.seqC
    ∧ (st.seqC < 255 → nextSeq st.seqC = st.seqC + 1)
    ∧ nextSeq 255 = 1
    ∧ 1 ≤ nextSeq st.seqC ∧ nextSeq st.seqC ≤ 255 := by
  refine ⟨(do_command_state st addr action input reads hmode).1, rfl, rfl, ?_, ?_, rfl, ?_, ?_⟩
  · unfold nextSeq
    omega
  · intro h
    unfold nextSeq
    omega
  · unfold nextSeq
    omega
  · unfold nextSeq
    omega

/-- Witness for C7 at a concrete state and transport. -/
theorem claim7_witness :
    (⟨0, BusMode.normal, 0, 0⟩ : CommState).mode = BusMode.normal
    ∧ (do_command ⟨0, BusMode.normal, 0, 0⟩ [69, 1] get_voltage [] [[]]).2.seqC = nextSeq 0
    ∧ (start_address_mode ⟨0, BusMode.normal, 0, 0⟩).seqC = nextSeq 0
    ∧ (stop_address_mode ⟨0, BusMode.normal, 0, 0⟩).seqC = nextSeq 0
    ∧ nextSeq 0 ≠ 0
    ∧ ((0 : Nat) < 255 → nextSeq 0 = 0 + 1)
    ∧ nextSeq 255 = 1
    ∧ 1 ≤ nextSeq 0 ∧ nextSeq 0 ≤ 255 := by
  have h := claim7_sequence_counter ⟨0, BusMode.normal, 0, 0⟩ [69, 1] [] get_voltage [[]] rfl
  exact ⟨rfl, h.1, h.2.1, h.2.2.1, h.2.2.2.1, h.2.2.2.2.1, h.2.2.2.2.2.1,
    h.2.2.2.2.2.2.1, h.2.2.2.2.2.2.2⟩

/-- C8: on any exception during the cloud check — a failed post or
unparseable JSON (response is none), or a parsed object missing the
open_vpn key — should_open_vpn returns (false, true): the check is
reported failed but opening the vpn is still requested, so cloud
unreachability fails open toward the tunnel. -/
theorem claim8_fails_open (st : CloudState) (now : Int) (response : Option JObj)
    (h : response = none
      ∨ ∃ data, response = some data ∧ jlookup data JKey.open_vpn = none) :
    (should_open_vpn st now response).1 = (false, JVal.bool true) := by
  rcases h with h | ⟨data, hr, hk⟩
  · subst h
    rfl
  · subst hr
    simp [should_open_vpn, hk]

/-- Witness for C8 at a concrete state with a failed request and with a
response lacking the open_vpn key. -/
theorem claim8_witness :
    ((none : Option JObj) = none
      ∨ ∃ data, (none : Option JObj) = some data ∧ jlookup data JKey.open_vpn = none)
    ∧ (should_open_vpn ⟨JVal.num 30, none, 0, false, false, []⟩ 5 none).1
        = (false, JVal.bool true)
    ∧ (should_open_vpn ⟨JVal.num 30, none, 0, false, false, []⟩ 5
        (some [(JKey.sleep_time, JVal.num 60)])).1 = (false, JVal.bool true) :=
  ⟨Or.inl rfl,
   claim8_fails_open ⟨JVal.num 30, none, 0, false, false, []⟩ 5 none (Or.inl rfl),
   claim8_fails_open ⟨JVal.num 30, none, 0, false, false, []⟩ 5
     (some [(JKey.sleep_time, JVal.num 60)])
     (Or.inr ⟨[(JKey.sleep_time, JVal.num 60)], rfl, rfl⟩)⟩

/-- C9: after every append the in-memory buffer holds at most BUFFER_SIZE
elements, and the result is exactly the trailing elements of the appended
buffer — when the cap is exceeded the oldest elements are dropped and the
most recently appended elements are retained in order. -/
theorem claim9_buffer_bounded {α : Type} (buf : List α) (e : α) :
    (append_to_buffer buf e).length ≤ BUFFER_SIZE
    ∧ append_to_buffer buf e
        = (buf ++ [e]).drop ((buf ++ [e]).length - BUFFER_SIZE) := by
  simp only [append_to_buffer, BUFFER_SIZE]
  by_cases h : 2500 < (buf ++ [e]).length
  · rw [if_pos h]
    refine ⟨?_, rfl⟩
    rw [List.length_drop]
    omega
  · rw [if_neg h]
    have h0 : (buf ++ [e]).length - 2500 = 0 := by omega
    rw [h0, List.drop_zero]
    exact ⟨by omega, rfl⟩

/-- Appending on the right preserves the suffix relation. -/
lemma suffix_append_same {α : Type} {l m : List α} (h : l <:+ m) (w : List α) :
    l ++ w <:+ m ++ w := by
  obtain ⟨u, hu⟩ := h
  exact ⟨u, by rw [← List.append_assoc, hu]⟩

/-- Mapping preserves the suffix relation. -/
lemma suffix_map {α β : Type} (f : α → β) {l m : List α} (h : l <:+ m) :
    l.map f <:+ m.map f := by
  obtain ⟨u, hu⟩ := h
  exact ⟨u.map f, by rw [← List.map_append, hu]⟩

/-- Filtering by a lower time bound keeps a suffix of a list of entries
whose timestamps are nondecreasing. -/
lemma filter_lt_suffix (c : Int) :
    ∀ l : List (Int × Nat), List.Pairwise (fun p q : Int × Nat => p.1 ≤ q.1) l →
      (l.filter fun i => c < i.1) <:+ l := by
  intro l
  induction l with
  | nil => intro _; exact List.nil_suffix
  | cons x xs ih =>
    intro hp
    rw [List.pairwise_cons] at hp
    by_cases hx : c < x.1
    · have hall : (xs.filter fun i => c < i.1) = xs := by
        refine List.filter_eq_self.mpr fun a ha => ?_
        simpa using lt_of_lt_of_le hx (hp.1 a ha)
      rw [List.filter_cons_of_pos (by simpa using hx), hall]
    · rw [List.filter_cons_of_neg (by simpa using hx)]
      exact (ih hp.2).trans (List.suffix_cons x xs)

/-- The timestamps of the entries appended by a history's add events form
a sublist of the history's clock values. -/
lemma addsOf_sublist_times :
    ∀ evs : List InputEv,
      List.Sublist ((addsOf evs).map Prod.fst) (evs.map InputEv.time) := by
  intro evs
  induction evs with
  | nil => simp [addsOf]
  | cons ev r ih =>
    cases ev with
    | add t d => simpa [addsOf, InputEv.time] using ih.cons₂ t
    | get t => simpa [addsOf, InputEv.time] using ih.cons t

/-- Replaying a history whose clock values continue the (sorted) stored
timestamps leaves the stored entries a suffix of the original entries
followed by the appended entries: removal always happens at the front. -/
lemma run_suffix :
    ∀ (evs : List InputEv) (s : InputState),
      List.Pairwise (· ≤ ·) (s.inputs.map Prod.fst ++ evs.map InputEv.time) →
      (InputState.run s evs).inputs <:+ s.inputs ++ addsOf evs := by
  intro evs
  induction evs with
  | nil =>
    intro s _
    simp [InputState.run, addsOf]
  | cons ev r ih =>
    intro s hp
    have hs : List.Pairwise (fun p q : Int × Nat => p.1 ≤ q.1) s.inputs := by
      have := (List.pairwise_append.mp hp).1
      exact List.pairwise_map.mp this
    cases ev with
    | add t d =>
      have hcl : (InputState.clean s t).inputs <:+ s.inputs := filter_lt_suffix _ _ hs
      have hpre : (InputState.clean s t).inputs.drop
          ((InputState.clean s t).inputs.length + 1 - (InputState.clean s t).num_inputs)
          <:+ s.inputs :=
        (List.drop_suffix _ _).trans hcl
      have h1 : (InputState.add_data s t d).inputs <:+ s.inputs ++ [(t, d)] :=
        suffix_append_same hpre [(t, d)]
      have hp2 : List.Pairwise (· ≤ ·)
          ((InputState.add_data s t d).inputs.map Prod.fst ++ r.map InputEv.time) := by
        refine List.Pairwise.sublist ?_ hp
        have hsub : List.Sublist ((InputState.add_data s t d).inputs.map Prod.fst)
            (s.inputs.map Prod.fst ++ [t]) := by
          have := (h1.sublist).map Prod.fst
          simpa using this
        have := hsub.append_right (r.map InputEv.time)
        simpa [InputEv.time, List.append_assoc] using this
      have h2 := ih (InputState.add_data s t d) hp2
      refine h2.trans ?_
      have h3 := suffix_append_same h1 (addsOf r)
      simpa [addsOf, List.append_assoc] using h3
    | get t =>
      have hcl : ((InputState.get_status s t).2).inputs <:+ s.inputs :=
        filter_lt_suffix _ _ hs
      have hp2 : List.Pairwise (· ≤ ·)
          (((InputState.get_status s t).2).inputs.map Prod.fst ++ r.map InputEv.time) := by
        refine List.Pairwise.sublist ?_ hp
        refine List.Sublist.append (hcl.sublist.map Prod.fst) ?_
        simp [InputEv.time]
      have h2 := ih ((InputState.get_status s t).2) hp2
      refine h2.trans ?_
      simpa [addsOf] using suffix_append_same hcl (addsOf r)

/-- Replaying a history preserves the configuration fields. -/
lemma run_fields :
    ∀ (evs : List InputEv) (s : InputState),
      (InputState.run s evs).num_inputs = s.num_inputs
      ∧ (InputState.run s evs).seconds = s.seconds := by
  intro evs
  induction evs with
  | nil => intro s; exact ⟨rfl, rfl⟩
  | cons ev r ih =>
    intro s
    cases ev with
    | add t d => exact ih (s.add_data t d)
    | get t => exact ih (s.get_status t).2

/-- Replaying a history never pushes the stored entries beyond capacity. -/
lemma run_length :
    ∀ (evs : List InputEv) (s : InputState),
      1 ≤ s.num_inputs → s.inputs.length ≤ s.num_inputs →
      (InputState.run s evs).inputs.length ≤ s.num_inputs := by
  intro evs
  induction evs with
  | nil => intro s _ h; simpa [InputState.run] using h
  | cons ev r ih =>
    intro s h1 hlen
    cases ev with
    | add t d =>
      have hc : (s.clean t).inputs.length ≤ s.inputs.length := List.length_filter_le _ _
      have hl : (s.add_data t d).inputs.length ≤ s.num_inputs := by
        simp only [InputState.add_data, InputState.clean, List.length_append,
          List.length_drop, List.length_cons, List.length_nil]
        simp only [InputState.clean] at hc
        omega
      exact ih (s.add_data t d) h1 hl
    | get t =>
      have hc : ((s.get_status t).2).inputs.length ≤ s.inputs.length :=
        List.length_filter_le _ _
      exact ih (s.get_status t).2 h1 (le_trans hc hlen)

/-- C10: after replaying any history of add_data and get_status calls with
nondecreasing clock values against a fresh InputStatus, a get_status at
time now returns at most num_inputs entries; the returned data is a suffix
of the data added, in insertion order — so when capacity was exceeded the
oldest entries were evicted first; and each returned entry was added
within the last `seconds` seconds. -/
theorem claim10_input_status (n : Nat) (secs : Int) (evs : List InputEv) (now : Int)
    (hn : 1 ≤ n)
    (hchron : List.Pairwise (· ≤ ·) (evs.map InputEv.time)) :
    ((InputState.run (InputState.new n secs) evs).get_status now).1.length ≤ n
    ∧ ((InputState.run (InputState.new n secs) evs).get_status now).1
        <:+ (addsOf evs).map Prod.snd
    ∧ ∀ d ∈ ((InputState.run (InputState.new n secs) evs).get_status now).1,
        ∃ t, (t, d) ∈ addsOf evs ∧ now - secs < t := by
  have hrun : (InputState.run (InputState.new n secs) evs).inputs <:+ addsOf evs := by
    simpa [InputState.new] using
      run_suffix evs (InputState.new n secs) (by simpa [InputState.new] using hchron)
  have hpairs : List.Pairwise (fun p q : Int × Nat => p.1 ≤ q.1)
      (InputState.run (InputState.new n secs) evs).inputs := by
    refine List.pairwise_map.mp ?_
    refine List.Pairwise.sublist ((hrun.sublist).map Prod.fst) ?_
    exact List.Pairwise.sublist (addsOf_sublist_times evs) hchron
  have hsecs : (InputState.run (InputState.new n secs) evs).seconds = secs :=
    (run_fields evs (InputState.new n secs)).2
  have hnum : (InputState.run (InputState.new n secs) evs).num_inputs = n :=
    (run_fields evs (InputState.new n secs)).1
  have hcl : ((InputState.run (InputState.new n secs) evs).get_status now).2.inputs
      <:+ (InputState.run (InputState.new n secs) evs).inputs :=
    filter_lt_suffix _ _ hpairs
  refine ⟨?_, ?_, ?_⟩
  · have hlen : (InputState.run (InputState.new n secs) evs).inputs.length ≤ n :=
      run_length evs (InputState.new n secs) hn (Nat.zero_le n)
    have : ((InputState.run (InputState.new n secs) evs).get_status now).1.length
        = ((InputState.run (InputState.new n secs) evs).get_status now).2.inputs.length := by
      simp [InputState.get_status]
    rw [this]
    have := hcl.sublist.length_le
    omega
  · have : ((InputState.run (InputState.new n secs) evs).get_status now).1
        = ((InputState.run (InputState.new n secs) evs).get_status now).2.inputs.map
            Prod.snd := by
      simp [InputState.get_status]
    rw [this]
    exact suffix_map Prod.snd (hcl.trans hrun)
  · intro d hd
    simp only [InputState.get_status, InputState.clean, List.mem_map] at hd
    obtain ⟨p, hpmem, hpd⟩ := hd
    rw [List.mem_filter] at hpmem
    refine ⟨p.1, ?_, ?_⟩
    · have := hrun.sublist.subset hpmem.1
      rwa [show (p.1, d) = p from by rw [← hpd]]
    · have := hpmem.2
      rw [hsecs] at this
      simpa using this

/-- Witness for C10 at a concrete history. -/
theorem claim10_witness :
    (1 : Nat) ≤ 2
    ∧ List.Pairwise (· ≤ ·) (([InputEv.add 0 5, InputEv.add 1 6, InputEv.add 2 7,
        InputEv.get 2]).map InputEv.time)
    ∧ ((InputState.run (InputState.new 2 10)
        [InputEv.add 0 5, InputEv.add 1 6, InputEv.add 2 7, InputEv.get 2]).get_status 3).1.length ≤ 2
    ∧ ((InputState.run (InputState.new 2 10)
        [InputEv.add 0 5, InputEv.add 1 6, InputEv.add 2 7, InputEv.get 2]).get_status 3).1
        <:+ (addsOf [InputEv.add 0 5, InputEv.add 1 6, InputEv.add 2 7,
              InputEv.get 2]).map Prod.snd
    ∧ ∀ d ∈ ((InputState.run (InputState.new 2 10)
        [InputEv.add 0 5, InputEv.add 1 6, InputEv.add 2 7, InputEv.get 2]).get_status 3).1,
        ∃ t, (t, d) ∈ addsOf [InputEv.add 0 5, InputEv.add 1 6, InputEv.add 2 7,
          InputEv.get 2] ∧ (3 : Int) - 10 < t := by
  have h := claim10_input_status 2 10
    [InputEv.add 0 5, InputEv.add 1 6, InputEv.add 2 7, InputEv.get 2] 3
    (by decide) (by decide)
  exact ⟨by decide, by decide, h.1, h.2.1, h.2.2⟩

end Gateway
